import Mathlib

/-!
Verification development for the serialization-test-data generation
pipeline (`tools/generate_serialization_test_data.py`).

The script is embedded shallowly: a filesystem directory becomes a list
of named files, an external process becomes an environment-supplied exit
status plus captured output, and the pipeline `main` becomes a pure
function from an environment to a run outcome recording the exit code,
the external commands actually executed, the console messages, and the
final states of the workspace and fixture directories.
-/

namespace GenSerTestData

/-- A regular file: a name, opaque byte content, and an opaque metadata
blob standing for the timestamps and permissions that `shutil.copy2`
carries along with the content. -/
structure FsFile where
  name : String
  content : String
  meta : Nat
  deriving DecidableEq, Repr

/-- Decimal value of a list of digit characters, as Python `int()` reads
the captured regex group. -/
def parseDigits (cs : List Char) : Nat :=
  cs.foldl (fun n c => n * 10 + (c.toNat - 48)) 0

/-- Leftmost-match semantics of `re.search` for the pattern
`version "(\d+)`: find the first position whose text starts with the
literal `version "` followed by at least one digit, and return the value
of the maximal digit run there; `none` when no position matches. -/
def findVersionMajorAux : List Char → Option Nat
  | [] => none
  | c :: rest =>
    if List.isPrefixOf ("version \"".toList) (c :: rest) then
      let ds := (List.drop 9 (c :: rest)).takeWhile Char.isDigit
      if ds.isEmpty then findVersionMajorAux rest else some (parseDigits ds)
    else findVersionMajorAux rest

/-- Major Java version extracted from a version-report text. -/
def findVersionMajor (s : String) : Option Nat :=
  findVersionMajorAux s.toList

/-- Captured result of `subprocess.run(["java", "-version"],
capture_output=True, text=True)`: the exit status, the captured standard
output and the captured standard error. -/
structure JavaRunResult where
  exitCode : Int
  stdout : String
  stderr : String
  deriving DecidableEq, Repr

/-- Outcome of the Java version check: acceptance with the detected
version, or a fatal rejection (`sys.exit(1)`). -/
inductive JavaCheck
  | accepted (version : Nat)
  | rejected
  deriving DecidableEq, Repr

/-- `check_java_version`: reads only the captured standard-error text,
extracts the major version, exits fatally unless it equals 25, and
reports the printed messages. -/
def check_java_version (r : JavaRunResult) : JavaCheck × List String :=
  match findVersionMajor r.stderr with
  | some v =>
    if v ≠ 25 then
      (JavaCheck.rejected,
        ["Error: Java 25 is required, but found Java " ++ toString v ++ "."])
    else
      (JavaCheck.accepted v, ["Found Java " ++ toString v ++ "."])
  | none =>
    (JavaCheck.rejected, ["Error: Could not parse Java version.", r.stderr])

/-- `check_command_installed`: `none` when the command resolves on the
search path (`shutil.which`), otherwise the fatal error message naming
the missing tool. -/
def check_command_installed (onPath : String → Bool) (command : String) :
    Option String :=
  if onPath command then none
  else some ("Error: " ++ command ++ " is not installed or not in PATH.")

/-- The pattern `*.sk` under `pathlib.Path.glob` semantics on a flat
directory listing: `fnmatch` translates `*.sk` to a regex whose full
match on an entry name holds exactly when the name ends with `.sk`. -/
def matchesSk (name : String) : Bool :=
  List.isSuffixOf (String.toList ".sk") (String.toList name)

/-- `shutil.copy2` of a file into a directory: a same-named entry is
overwritten in place, otherwise the file is added; content and metadata
travel with the file. -/
def copyInto (dest : List FsFile) (f : FsFile) : List FsFile :=
  if dest.any (fun g => g.name = f.name) then
    dest.map (fun g => if g.name = f.name then f else g)
  else
    dest ++ [f]

/-- One iteration of the harvest loop in `main` step 6: copy the entry
when it matches `*.sk` and count it, otherwise skip it. -/
def copyStep (acc : List FsFile × Nat) (f : FsFile) : List FsFile × Nat :=
  if matchesSk f.name then (copyInto acc.1 f, acc.2 + 1) else acc

/-- The harvest loop of `main` step 6 over a directory listing. -/
def copyFold (dest : List FsFile) (files : List FsFile) : List FsFile × Nat :=
  files.foldl copyStep (dest, 0)

/-- Artifact harvest (`main`, step 6): fatal (`none`) when the generated
directory does not exist; otherwise the destination is created if absent
(`mkdir(parents=True, exist_ok=True)`) and every `*.sk` entry is copied,
returning the new destination contents and the copy count. -/
def harvest (sourceDir : Option (List FsFile)) (destDir : Option (List FsFile)) :
    Option (List FsFile × Nat) :=
  match sourceDir with
  | none => none
  | some files => some (copyFold (destDir.getD []) files)

/-- `main` step 3: if the temporary workspace directory exists it is
removed recursively, then it is created fresh. -/
def resetWorkspace (ws : Option (List FsFile)) : Option (List FsFile) :=
  match ws with
  | some _ => some []
  | none => some []

/-- The fixed upstream repository URL cloned by `main` step 4. -/
def repoUrl : String := "https://github.com/apache/datasketches-java.git"

/-- The workspace directory name, relative to the project root. -/
def tempDirName : String := "tmp_datasketches_java"

/-- The Maven command of `main` step 5: the `.cmd`-suffixed variant
exactly when `os.name` is `nt`, the plain variant otherwise. -/
def mvnCommand (osName : String) : List String :=
  if osName = "nt" then ["mvn.cmd", "test", "-P", "generate-java-files"]
  else ["mvn", "test", "-P", "generate-java-files"]

/-- An external command actually executed through `run_command`,
recording the argument vector and, for the build, the working
directory. -/
inductive Event
  | ranClone (cmd : List String)
  | ranBuild (cmd : List String) (cwd : String)
  deriving DecidableEq, Repr

/-- Diagnostic printed by `run_command` when the child exits non-zero,
mirroring the `CalledProcessError` text. -/
def runErrorMessage (cmd : List String) (code : Int) : String :=
  "Error running command: Command " ++ String.intercalate " " cmd ++
    " returned non-zero exit status " ++ toString code ++ "."

/-- The environment a pipeline run executes in: which executables
resolve on the search path, what `java -version` reports, the initial
states of the workspace and fixture directories, the exit statuses of
the delegated clone and build commands, the workspace contents they
produce on success, and the generated-files directory the build leaves
behind (`none` when the build did not produce it). -/
structure Env where
  onPath : String → Bool
  javaResult : JavaRunResult
  initialWorkspace : Option (List FsFile)
  cloneExit : Int
  cloneResult : List FsFile
  buildExit : Int
  buildResult : List FsFile
  generatedFiles : Option (List FsFile)
  initialFixture : Option (List FsFile)
  osName : String

/-- Observable outcome of one pipeline run: process exit code, the
external commands executed in order, the console messages, the final
workspace and fixture directory states, and the reported copy count. -/
structure RunOutcome where
  exitCode : Nat
  events : List Event
  messages : List String
  workspace : Option (List FsFile)
  fixture : Option (List FsFile)
  copied : Option Nat
  deriving DecidableEq, Repr

/-- The body of `main` once the build command vector has been fixed;
`os.name` is consulted in exactly one place, the choice of that
vector. -/
def mainRunWith (buildCmd : List String) (env : Env) : RunOutcome :=
  match check_command_installed env.onPath "git" with
  | some msg => ⟨1, [], [msg], env.initialWorkspace, env.initialFixture, none⟩
  | none =>
  match check_command_installed env.onPath "mvn" with
  | some msg => ⟨1, [], [msg], env.initialWorkspace, env.initialFixture, none⟩
  | none =>
  match check_command_installed env.onPath "java" with
  | some msg => ⟨1, [], [msg], env.initialWorkspace, env.initialFixture, none⟩
  | none =>
  match check_java_version env.javaResult with
  | (JavaCheck.rejected, msgs) =>
    ⟨1, [], msgs, env.initialWorkspace, env.initialFixture, none⟩
  | (JavaCheck.accepted _, msgs0) =>
    let ws0 := resetWorkspace env.initialWorkspace
    let cloneCmd := ["git", "clone", repoUrl, tempDirName]
    if env.cloneExit ≠ 0 then
      ⟨1, [Event.ranClone cloneCmd],
        msgs0 ++ [runErrorMessage cloneCmd env.cloneExit],
        ws0, env.initialFixture, none⟩
    else
      let ws1 := some env.cloneResult
      if env.buildExit ≠ 0 then
        ⟨1, [Event.ranClone cloneCmd, Event.ranBuild buildCmd tempDirName],
          msgs0 ++ [runErrorMessage buildCmd env.buildExit],
          ws1, env.initialFixture, none⟩
      else
        let ws2 := some env.buildResult
        match env.generatedFiles with
        | none =>
          ⟨1, [Event.ranClone cloneCmd, Event.ranBuild buildCmd tempDirName],
            msgs0 ++ ["Error: Expected generated files directory not found at " ++
              tempDirName ++ "/serialization_test_data/java_generated_files"],
            ws2, env.initialFixture, none⟩
        | some gfiles =>
          let res := copyFold (env.initialFixture.getD []) gfiles
          let copyMsgs := (gfiles.filter (fun f => matchesSk f.name)).map
            (fun f => "Copied: " ++ f.name)
          let finalMsg :=
            if res.2 = 0 then "Warning: No .sk files were found to copy."
            else "Successfully copied " ++ toString res.2 ++ " files."
          ⟨0, [Event.ranClone cloneCmd, Event.ranBuild buildCmd tempDirName],
            msgs0 ++ copyMsgs ++ [finalMsg], ws2, some res.1, some res.2⟩

/-- The whole pipeline `main` as a function of the environment. -/
def mainRun (env : Env) : RunOutcome :=
  mainRunWith (mvnCommand env.osName) env

/-- Whether an executed event is the clone invocation. -/
def isCloneEvent : Event → Bool
  | Event.ranClone _ => true
  | _ => false

/-- Whether an executed event is the build invocation. -/
def isBuildEvent : Event → Bool
  | Event.ranBuild _ _ => true
  | _ => false

/-- The clone command vector of `main` step 4. -/
def cloneCmdVec : List String :=
  ["git", "clone", repoUrl, tempDirName]

/-- Example directory entry with the target extension. -/
def fileASk : FsFile := ⟨"a.sk", "A", 1⟩

/-- Second example entry with the target extension. -/
def fileBSk : FsFile := ⟨"b.sk", "B", 2⟩

/-- Example entry with a different extension. -/
def fileCTxt : FsFile := ⟨"c.txt", "C", 3⟩

/-- A version-report text whose major version is 25. -/
def stderr25 : String := "openjdk version \"25.0.1\" 2025-10-21"

/-- A version-report text whose major version is 24. -/
def stderr24 : String := "openjdk version \"24.0.2\" 2025-07-15"

/-- A version-report text whose major version is 26. -/
def stderr26 : String := "openjdk version \"26\" 2026-03-17"

/-- An environment in which every pipeline step succeeds. -/
def envOk : Env :=
  { onPath := fun _ => true
    javaResult := ⟨0, "", stderr25⟩
    initialWorkspace := none
    cloneExit := 0
    cloneResult := []
    buildExit := 0
    buildResult := [⟨"pom.xml", "P", 0⟩]
    generatedFiles := some [fileASk, fileBSk, fileCTxt]
    initialFixture := some []
    osName := "posix" }

/-! ### Supporting lemmas about the copy loop -/

theorem mem_copyInto_self (d : List FsFile) (f : FsFile) : f ∈ copyInto d f := by
  unfold copyInto
  by_cases h : d.any (fun g => g.name = f.name) = true
  · rw [if_pos h]
    rcases List.any_eq_true.mp h with ⟨g, hg, hname⟩
    exact List.mem_map.mpr ⟨g, hg, by simp_all⟩
  · rw [if_neg h]
    exact List.mem_append_right d (List.mem_singleton.mpr rfl)

theorem mem_copyInto_of_name_ne {d : List FsFile} {g f : FsFile}
    (hg : g ∈ d) (h : g.name ≠ f.name) : g ∈ copyInto d f := by
  unfold copyInto
  by_cases hc : d.any (fun x => x.name = f.name) = true
  · rw [if_pos hc]
    exact List.mem_map.mpr ⟨g, hg, by simp [h]⟩
  · rw [if_neg hc]
    exact List.mem_append_left _ hg

theorem mem_of_mem_copyInto {d : List FsFile} {h f : FsFile}
    (hm : h ∈ copyInto d f) : h = f ∨ h ∈ d := by
  unfold copyInto at hm
  by_cases hc : d.any (fun x => x.name = f.name) = true
  · rw [if_pos hc] at hm
    rcases List.mem_map.mp hm with ⟨g, hg, hge⟩
    by_cases hn : g.name = f.name
    · simp [hn] at hge; exact Or.inl hge.symm
    · simp [hn] at hge; exact Or.inr (hge ▸ hg)
  · rw [if_neg hc] at hm
    rcases List.mem_append.mp hm with h1 | h1
    · exact Or.inr h1
    · exact Or.inl (List.mem_singleton.mp h1)

theorem copyInto_map_name_of_pos {d : List FsFile} {f : FsFile}
    (hc : d.any (fun x => x.name = f.name) = true) :
    (copyInto d f).map FsFile.name = d.map FsFile.name := by
  unfold copyInto
  rw [if_pos hc, List.map_map]
  refine List.map_congr_left ?_
  intro g _
  by_cases hn : g.name = f.name <;> simp [hn]

theorem copyInto_map_name_of_neg {d : List FsFile} {f : FsFile}
    (hc : ¬ d.any (fun x => x.name = f.name) = true) :
    (copyInto d f).map FsFile.name = d.map FsFile.name ++ [f.name] := by
  unfold copyInto
  rw [if_neg hc, List.map_append]
  rfl

theorem copyInto_map_name_nodup {d : List FsFile} {f : FsFile}
    (hd : (d.map FsFile.name).Nodup) :
    ((copyInto d f).map FsFile.name).Nodup := by
  by_cases hc : d.any (fun x => x.name = f.name) = true
  · rw [copyInto_map_name_of_pos hc]; exact hd
  · rw [copyInto_map_name_of_neg hc]
    rw [List.nodup_append]
    refine ⟨hd, List.nodup_singleton _, ?_⟩
    intro x hx hy
    rcases List.mem_map.mp hx with ⟨g, hg, hge⟩
    have hx_eq : x = f.name := List.mem_singleton.mp hy
    apply hc
    exact List.any_eq_true.mpr ⟨g, hg, by simp [hge, hx_eq]⟩

theorem name_mem_copyInto {d : List FsFile} {f : FsFile} {x : String}
    (hx : x ∈ d.map FsFile.name) : x ∈ (copyInto d f).map FsFile.name := by
  by_cases hc : d.any (fun g => g.name = f.name) = true
  · rw [copyInto_map_name_of_pos hc]; exact hx
  · rw [copyInto_map_name_of_neg hc]; exact List.mem_append_left _ hx

theorem foldl_copyStep_snd (files : List FsFile) :
    ∀ (d : List FsFile) (n : Nat),
      (files.foldl copyStep (d, n)).2 =
        n + (files.filter (fun f => matchesSk f.name)).length := by
  induction files with
  | nil => intro d n; simp
  | cons f fs ih =>
    intro d n
    by_cases h : matchesSk f.name = true
    · rw [List.foldl_cons]
      rw [show copyStep (d, n) f = (copyInto d f, n + 1) by simp [copyStep, h]]
      have hfc : List.filter (fun f => matchesSk f.name) (f :: fs)
          = f :: List.filter (fun f => matchesSk f.name) fs := by
        simp [List.filter_cons, h]
      rw [ih, hfc, List.length_cons]
      omega
    · rw [List.foldl_cons]
      rw [show copyStep (d, n) f = (d, n) by simp [copyStep, h]]
      have hfc : List.filter (fun f => matchesSk f.name) (f :: fs)
          = List.filter (fun f => matchesSk f.name) fs := by
        simp [List.filter_cons, h]
      rw [ih, hfc]

theorem foldl_copyStep_preserve (files : List FsFile) :
    ∀ (d : List FsFile) (n : Nat) (g : FsFile), g ∈ d →
      (∀ f ∈ files, matchesSk f.name = true → f.name ≠ g.name) →
      g ∈ (files.foldl copyStep (d, n)).1 := by
  induction files with
  | nil => intro d n g hg _; simpa using hg
  | cons f fs ih =>
    intro d n g hg hnames
    rw [List.foldl_cons]
    by_cases h : matchesSk f.name = true
    · rw [show copyStep (d, n) f = (copyInto d f, n + 1) by simp [copyStep, h]]
      refine ih _ _ _ ?_ ?_
      · exact mem_copyInto_of_name_ne hg
          (fun he => hnames f (List.mem_cons_self f fs) h (he ▸ rfl))
      · intro x hx hskx
        exact hnames x (List.mem_cons_of_mem f hx) hskx
    · rw [show copyStep (d, n) f = (d, n) by simp [copyStep, h]]
      refine ih _ _ _ hg ?_
      intro x hx hskx
      exact hnames x (List.mem_cons_of_mem f hx) hskx

theorem foldl_copyStep_mem_src (files : List FsFile) :
    ∀ (d : List FsFile) (n : Nat) (f : FsFile),
      (files.map FsFile.name).Nodup → f ∈ files → matchesSk f.name = true →
      f ∈ (files.foldl copyStep (d, n)).1 := by
  induction files with
  | nil => intro d n f _ hf; exact absurd hf (List.not_mem_nil f)
  | cons g fs ih =>
    intro d n f hnd hf hsk
    rw [List.map_cons, List.nodup_cons] at hnd
    rw [List.foldl_cons]
    rcases List.mem_cons.mp hf with rfl | hf
    · rw [show copyStep (d, n) f = (copyInto d f, n + 1) by simp [copyStep, hsk]]
      refine foldl_copyStep_preserve fs _ _ _ (mem_copyInto_self d f) ?_
      intro x hx _ hxe
      exact hnd.1 (hxe ▸ List.mem_map_of_mem FsFile.name hx)
    · by_cases h : matchesSk g.name = true
      · rw [show copyStep (d, n) g = (copyInto d g, n + 1) by simp [copyStep, h]]
        exact ih _ _ _ hnd.2 hf hsk
      · rw [show copyStep (d, n) g = (d, n) by simp [copyStep, h]]
        exact ih _ _ _ hnd.2 hf hsk

theorem foldl_copyStep_provenance (files : List FsFile) :
    ∀ (d : List FsFile) (n : Nat) (h : FsFile),
      h ∈ (files.foldl copyStep (d, n)).1 →
      h ∈ d ∨ (h ∈ files ∧ matchesSk h.name = true) := by
  induction files with
  | nil => intro d n h hm; exact Or.inl (by simpa using hm)
  | cons f fs ih =>
    intro d n h hm
    rw [List.foldl_cons] at hm
    by_cases hf : matchesSk f.name = true
    · rw [show copyStep (d, n) f = (copyInto d f, n + 1) by simp [copyStep, hf]] at hm
      rcases ih _ _ _ hm with hd | ⟨hin, hsk⟩
      · rcases mem_of_mem_copyInto hd with rfl | hd2
        · exact Or.inr ⟨List.mem_cons_self _ _, hf⟩
        · exact Or.inl hd2
      · exact Or.inr ⟨List.mem_cons_of_mem f hin, hsk⟩
    · rw [show copyStep (d, n) f = (d, n) by simp [copyStep, hf]] at hm
      rcases ih _ _ _ hm with hd | ⟨hin, hsk⟩
      · exact Or.inl hd
      · exact Or.inr ⟨List.mem_cons_of_mem f hin, hsk⟩

theorem foldl_copyStep_nodup (files : List FsFile) :
    ∀ (d : List FsFile) (n : Nat), (d.map FsFile.name).Nodup →
      ((files.foldl copyStep (d, n)).1.map FsFile.name).Nodup := by
  induction files with
  | nil => intro d n hd; simpa using hd
  | cons f fs ih =>
    intro d n hd
    rw [List.foldl_cons]
    by_cases hf : matchesSk f.name = true
    · rw [show copyStep (d, n) f = (copyInto d f, n + 1) by simp [copyStep, hf]]
      exact ih _ _ (copyInto_map_name_nodup hd)
    · rw [show copyStep (d, n) f = (d, n) by simp [copyStep, hf]]
      exact ih _ _ hd

theorem foldl_copyStep_name_mem (files : List FsFile) :
    ∀ (d : List FsFile) (n : Nat) (x : String), x ∈ d.map FsFile.name →
      x ∈ (files.foldl copyStep (d, n)).1.map FsFile.name := by
  induction files with
  | nil => intro d n x hx; simpa using hx
  | cons f fs ih =>
    intro d n x hx
    rw [List.foldl_cons]
    by_cases hf : matchesSk f.name = true
    · rw [show copyStep (d, n) f = (copyInto d f, n + 1) by simp [copyStep, hf]]
      exact ih _ _ _ (name_mem_copyInto hx)
    · rw [show copyStep (d, n) f = (d, n) by simp [copyStep, hf]]
      exact ih _ _ _ hx

theorem foldl_copyStep_no_match (files : List FsFile) :
    ∀ (d : List FsFile) (n : Nat), (∀ f ∈ files, ¬ matchesSk f.name = true) →
      files.foldl copyStep (d, n) = (d, n) := by
  induction files with
  | nil => intro d n _; rfl
  | cons f fs ih =>
    intro d n hno
    rw [List.foldl_cons]
    rw [show copyStep (d, n) f = (d, n) by
      simp [copyStep, hno f (List.mem_cons_self f fs)]]
    exact ih d n (fun x hx => hno x (List.mem_cons_of_mem f hx))

/-! ### Shape lemmas characterizing each branch of the pipeline -/

theorem resetWorkspace_eq (w : Option (List FsFile)) : resetWorkspace w = some [] := by
  cases w <;> rfl

theorem mainRunWith_missing_git (buildCmd : List String) (env : Env)
    (h1 : env.onPath "git" = false) :
    mainRunWith buildCmd env =
      ⟨1, [], ["Error: " ++ "git" ++ " is not installed or not in PATH."],
        env.initialWorkspace, env.initialFixture, none⟩ := by
  unfold mainRunWith
  simp [check_command_installed, h1]

theorem mainRunWith_missing_mvn (buildCmd : List String) (env : Env)
    (h1 : env.onPath "git" = true) (h2 : env.onPath "mvn" = false) :
    mainRunWith buildCmd env =
      ⟨1, [], ["Error: " ++ "mvn" ++ " is not installed or not in PATH."],
        env.initialWorkspace, env.initialFixture, none⟩ := by
  unfold mainRunWith
  simp [check_command_installed, h1, h2]

theorem mainRunWith_missing_java (buildCmd : List String) (env : Env)
    (h1 : env.onPath "git" = true) (h2 : env.onPath "mvn" = true)
    (h3 : env.onPath "java" = false) :
    mainRunWith buildCmd env =
      ⟨1, [], ["Error: " ++ "java" ++ " is not installed or not in PATH."],
        env.initialWorkspace, env.initialFixture, none⟩ := by
  unfold mainRunWith
  simp [check_command_installed, h1, h2, h3]

theorem mainRunWith_java_rejected (buildCmd : List String) (env : Env)
    (h1 : env.onPath "git" = true) (h2 : env.onPath "mvn" = true)
    (h3 : env.onPath "java" = true)
    (hrej : (check_java_version env.javaResult).1 = JavaCheck.rejected) :
    mainRunWith buildCmd env =
      ⟨1, [], (check_java_version env.javaResult).2,
        env.initialWorkspace, env.initialFixture, none⟩ := by
  unfold mainRunWith
  simp only [check_command_installed, h1, h2, h3, if_true]
  rcases hcv : check_java_version env.javaResult with ⟨jc, msgs⟩
  rw [hcv] at hrej
  cases jc with
  | accepted v => exact absurd hrej (by simp)
  | rejected => rfl

theorem check_java_version_of_major_25 (r : JavaRunResult)
    (hv : findVersionMajor r.stderr = some 25) :
    check_java_version r = (JavaCheck.accepted 25, ["Found Java " ++ toString 25 ++ "."]) := by
  unfold check_java_version
  rw [hv]
  rfl

theorem mainRunWith_clone_failed (buildCmd : List String) (env : Env)
    (h1 : env.onPath "git" = true) (h2 : env.onPath "mvn" = true)
    (h3 : env.onPath "java" = true)
    (hv : findVersionMajor env.javaResult.stderr = some 25)
    (hc : env.cloneExit ≠ 0) :
    mainRunWith buildCmd env =
      ⟨1, [Event.ranClone cloneCmdVec],
        ["Found Java " ++ toString 25 ++ ".",
          runErrorMessage cloneCmdVec env.cloneExit],
        some [], env.initialFixture, none⟩ := by
  unfold mainRunWith
  simp [check_command_installed, h1, h2, h3,
    check_java_version_of_major_25 env.javaResult hv, resetWorkspace_eq, hc, cloneCmdVec]

theorem mainRunWith_build_failed (buildCmd : List String) (env : Env)
    (h1 : env.onPath "git" = true) (h2 : env.onPath "mvn" = true)
    (h3 : env.onPath "java" = true)
    (hv : findVersionMajor env.javaResult.stderr = some 25)
    (hc : env.cloneExit = 0) (hb : env.buildExit ≠ 0) :
    mainRunWith buildCmd env =
      ⟨1, [Event.ranClone cloneCmdVec, Event.ranBuild buildCmd tempDirName],
        ["Found Java " ++ toString 25 ++ ".",
          runErrorMessage buildCmd env.buildExit],
        some env.cloneResult, env.initialFixture, none⟩ := by
  unfold mainRunWith
  simp [check_command_installed, h1, h2, h3,
    check_java_version_of_major_25 env.javaResult hv, resetWorkspace_eq, hc, hb, cloneCmdVec]

theorem mainRunWith_no_generated (buildCmd : List String) (env : Env)
    (h1 : env.onPath "git" = true) (h2 : env.onPath "mvn" = true)
    (h3 : env.onPath "java" = true)
    (hv : findVersionMajor env.javaResult.stderr = some 25)
    (hc : env.cloneExit = 0) (hb : env.buildExit = 0)
    (hg : env.generatedFiles = none) :
    mainRunWith buildCmd env =
      ⟨1, [Event.ranClone cloneCmdVec, Event.ranBuild buildCmd tempDirName],
        ["Found Java " ++ toString 25 ++ ".",
          "Error: Expected generated files directory not found at " ++
            tempDirName ++ "/serialization_test_data/java_generated_files"],
        some env.buildResult, env.initialFixture, none⟩ := by
  unfold mainRunWith
  simp [check_command_installed, h1, h2, h3,
    check_java_version_of_major_25 env.javaResult hv, resetWorkspace_eq, hc, hb, hg, cloneCmdVec]

theorem mainRunWith_success (buildCmd : List String) (env : Env) (g : List FsFile)
    (h1 : env.onPath "git" = true) (h2 : env.onPath "mvn" = true)
    (h3 : env.onPath "java" = true)
    (hv : findVersionMajor env.javaResult.stderr = some 25)
    (hc : env.cloneExit = 0) (hb : env.buildExit = 0)
    (hg : env.generatedFiles = some g) :
    mainRunWith buildCmd env =
      ⟨0, [Event.ranClone cloneCmdVec, Event.ranBuild buildCmd tempDirName],
        ("Found Java " ++ toString 25 ++ ".") ::
          ((g.filter (fun f => matchesSk f.name)).map (fun f => "Copied: " ++ f.name) ++
            [if (copyFold (env.initialFixture.getD []) g).2 = 0 then
               "Warning: No .sk files were found to copy."
             else "Successfully copied " ++
               toString (copyFold (env.initialFixture.getD []) g).2 ++ " files."]),
        some env.buildResult,
        some (copyFold (env.initialFixture.getD []) g).1,
        some (copyFold (env.initialFixture.getD []) g).2⟩ := by
  unfold mainRunWith
  simp [check_command_installed, h1, h2, h3,
    check_java_version_of_major_25 env.javaResult hv, resetWorkspace_eq, hc, hb, hg,
    cloneCmdVec, copyFold]

theorem mainRunWith_exit_zero_iff (buildCmd : List String) (env : Env) :
    (mainRunWith buildCmd env).exitCode = 0 ↔
      (env.onPath "git" = true ∧ env.onPath "mvn" = true ∧ env.onPath "java" = true
        ∧ findVersionMajor env.javaResult.stderr = some 25
        ∧ env.cloneExit = 0 ∧ env.buildExit = 0 ∧ env.generatedFiles.isSome = true) := by
  by_cases h1 : env.onPath "git" = true
  · by_cases h2 : env.onPath "mvn" = true
    · by_cases h3 : env.onPath "java" = true
      · rcases hv : findVersionMajor env.javaResult.stderr with _ | v
        · rw [mainRunWith_java_rejected buildCmd env h1 h2 h3
            (by simp [check_java_version, hv])]
          simp [h1, h2, h3, hv]
        · by_cases hv25 : v = 25
          · subst hv25
            by_cases hc : env.cloneExit = 0
            · by_cases hb : env.buildExit = 0
              · rcases hg : env.generatedFiles with _ | g
                · rw [mainRunWith_no_generated buildCmd env h1 h2 h3 hv hc hb hg]
                  simp [h1, h2, h3, hv, hc, hb, hg]
                · rw [mainRunWith_success buildCmd env g h1 h2 h3 hv hc hb hg]
                  simp [h1, h2, h3, hv, hc, hb, hg]
              · rw [mainRunWith_build_failed buildCmd env h1 h2 h3 hv hc hb]
                simp [hb]
            · rw [mainRunWith_clone_failed buildCmd env h1 h2 h3 hv hc]
              simp [hc]
          · rw [mainRunWith_java_rejected buildCmd env h1 h2 h3
              (by simp [check_java_version, hv, hv25])]
            simp [hv, hv25]
      · rw [mainRunWith_missing_java buildCmd env h1 h2 (by simpa using h3)]
        simp [h3]
    · rw [mainRunWith_missing_mvn buildCmd env h1 (by simpa using h2)]
      simp [h2]
  · rw [mainRunWith_missing_git buildCmd env (by simpa using h1)]
    simp [h1]

theorem mainRunWith_events_cases (buildCmd : List String) (env : Env) :
    (mainRunWith buildCmd env).events = [] ∨
    (mainRunWith buildCmd env).events = [Event.ranClone cloneCmdVec] ∨
    (mainRunWith buildCmd env).events =
      [Event.ranClone cloneCmdVec, Event.ranBuild buildCmd tempDirName] := by
  by_cases h1 : env.onPath "git" = true
  · by_cases h2 : env.onPath "mvn" = true
    · by_cases h3 : env.onPath "java" = true
      · rcases hv : findVersionMajor env.javaResult.stderr with _ | v
        · rw [mainRunWith_java_rejected buildCmd env h1 h2 h3
            (by simp [check_java_version, hv])]
          exact Or.inl rfl
        · by_cases hv25 : v = 25
          · subst hv25
            by_cases hc : env.cloneExit = 0
            · by_cases hb : env.buildExit = 0
              · rcases hg : env.generatedFiles with _ | g
                · rw [mainRunWith_no_generated buildCmd env h1 h2 h3 hv hc hb hg]
                  exact Or.inr (Or.inr rfl)
                · rw [mainRunWith_success buildCmd env g h1 h2 h3 hv hc hb hg]
                  exact Or.inr (Or.inr rfl)
              · rw [mainRunWith_build_failed buildCmd env h1 h2 h3 hv hc hb]
                exact Or.inr (Or.inr rfl)
            · rw [mainRunWith_clone_failed buildCmd env h1 h2 h3 hv hc]
              exact Or.inr (Or.inl rfl)
          · rw [mainRunWith_java_rejected buildCmd env h1 h2 h3
              (by simp [check_java_version, hv, hv25])]
            exact Or.inl rfl
      · rw [mainRunWith_missing_java buildCmd env h1 h2 (by simpa using h3)]
        exact Or.inl rfl
    · rw [mainRunWith_missing_mvn buildCmd env h1 (by simpa using h2)]
      exact Or.inl rfl
  · rw [mainRunWith_missing_git buildCmd env (by simpa using h1)]
    exact Or.inl rfl

theorem mainRunWith_exit01 (buildCmd : List String) (env : Env) :
    (mainRunWith buildCmd env).exitCode = 0 ∨ (mainRunWith buildCmd env).exitCode = 1 := by
  by_cases h1 : env.onPath "git" = true
  · by_cases h2 : env.onPath "mvn" = true
    · by_cases h3 : env.onPath "java" = true
      · rcases hv : findVersionMajor env.javaResult.stderr with _ | v
        · rw [mainRunWith_java_rejected buildCmd env h1 h2 h3
            (by simp [check_java_version, hv])]
          exact Or.inr rfl
        · by_cases hv25 : v = 25
          · subst hv25
            by_cases hc : env.cloneExit = 0
            · by_cases hb : env.buildExit = 0
              · rcases hg : env.generatedFiles with _ | g
                · rw [mainRunWith_no_generated buildCmd env h1 h2 h3 hv hc hb hg]
                  exact Or.inr rfl
                · rw [mainRunWith_success buildCmd env g h1 h2 h3 hv hc hb hg]
                  exact Or.inl rfl
              · rw [mainRunWith_build_failed buildCmd env h1 h2 h3 hv hc hb]
                exact Or.inr rfl
            · rw [mainRunWith_clone_failed buildCmd env h1 h2 h3 hv hc]
              exact Or.inr rfl
          · rw [mainRunWith_java_rejected buildCmd env h1 h2 h3
              (by simp [check_java_version, hv, hv25])]
            exact Or.inr rfl
      · rw [mainRunWith_missing_java buildCmd env h1 h2 (by simpa using h3)]
        exact Or.inr rfl
    · rw [mainRunWith_missing_mvn buildCmd env h1 (by simpa using h2)]
      exact Or.inr rfl
  · rw [mainRunWith_missing_git buildCmd env (by simpa using h1)]
    exact Or.inr rfl

theorem mainRunWith_osName_irrelevant (buildCmd : List String) (env : Env) (o : String) :
    mainRunWith buildCmd { env with osName := o } = mainRunWith buildCmd env := by
  cases env
  rfl

/-! ### Claim theorems -/

/-- Claim C1: for every source directory, harvest copies exactly the
entries whose names match the fixed `.sk` extension (single directory
level) and no entry with a different extension, each under the same
filename with content and metadata preserved, and the reported count
equals the number of such entries. -/
theorem C1_harvest_copies_exactly_sk (src dest0 : List FsFile)
    (hsrc : (src.map FsFile.name).Nodup) :
    ∃ d n, harvest (some src) (some dest0) = some (d, n)
      ∧ n = (src.filter (fun f => matchesSk f.name)).length
      ∧ (∀ f ∈ src, matchesSk f.name = true → f ∈ d)
      ∧ (∀ h ∈ d, h ∈ dest0 ∨ (h ∈ src ∧ matchesSk h.name = true)) := by
  refine ⟨(copyFold dest0 src).1, (copyFold dest0 src).2, rfl, ?_, ?_, ?_⟩
  · simpa [copyFold] using foldl_copyStep_snd src dest0 0
  · intro f hf hsk
    exact foldl_copyStep_mem_src src dest0 0 f hsrc hf hsk
  · intro h hh
    exact foldl_copyStep_provenance src dest0 0 h hh

/-- Claim C1 witness: given a.sk, b.sk, c.txt, exactly 2 files are
copied. -/
theorem C1_harvest_copies_exactly_sk_witness :
    ∃ d n, harvest (some [fileASk, fileBSk, fileCTxt]) (some []) = some (d, n) ∧ n = 2 := by
  obtain ⟨d, n, hh, hn, _, _⟩ :=
    C1_harvest_copies_exactly_sk [fileASk, fileBSk, fileCTxt] [] (by decide)
  exact ⟨d, n, hh, by rw [hn]; decide⟩

/-- Claim C3: harvest fails fatally when the post-build source directory
does not exist; when it exists but contains no file with the target
extension, harvest reports zero copies as a warning and the pipeline
still exits successfully. -/
theorem C3_missing_dir_fatal_empty_dir_warns :
    (∀ dest, harvest none dest = none)
    ∧ (∀ src dest, (∀ f ∈ src, ¬ matchesSk f.name = true) →
        harvest (some src) (some dest) = some (dest, 0))
    ∧ (∀ env : Env, env.generatedFiles = none → (mainRun env).exitCode ≠ 0)
    ∧ (∀ (env : Env) (src : List FsFile), env.onPath "git" = true →
        env.onPath "mvn" = true → env.onPath "java" = true →
        findVersionMajor env.javaResult.stderr = some 25 →
        env.cloneExit = 0 → env.buildExit = 0 → env.generatedFiles = some src →
        (∀ f ∈ src, ¬ matchesSk f.name = true) →
        (mainRun env).exitCode = 0
          ∧ "Warning: No .sk files were found to copy." ∈ (mainRun env).messages
          ∧ (mainRun env).copied = some 0) := by
  refine ⟨fun dest => rfl, ?_, ?_, ?_⟩
  · intro src dest hno
    show some (copyFold dest src) = some (dest, 0)
    rw [copyFold, foldl_copyStep_no_match src dest 0 hno]
  · intro env hg h0
    unfold mainRun at h0
    rw [mainRunWith_exit_zero_iff] at h0
    rw [hg] at h0
    simp at h0
  · intro env src h1 h2 h3 hv hc hb hg hno
    have hcf : copyFold (env.initialFixture.getD []) src = (env.initialFixture.getD [], 0) := by
      rw [copyFold]
      exact foldl_copyStep_no_match src _ 0 hno
    unfold mainRun
    rw [mainRunWith_success (mvnCommand env.osName) env src h1 h2 h3 hv hc hb hg, hcf]
    refine ⟨rfl, ?_, rfl⟩
    simp

/-- Claim C3 witness: a missing source directory is fatal, and an
existing source directory with only a c.txt entry yields a successful
run that reports the zero-copy warning. -/
theorem C3_missing_dir_fatal_empty_dir_warns_witness :
    harvest none (some []) = none
    ∧ (mainRun { envOk with generatedFiles := some [fileCTxt] }).exitCode = 0
    ∧ "Warning: No .sk files were found to copy." ∈
        (mainRun { envOk with generatedFiles := some [fileCTxt] }).messages := by
  have h := C3_missing_dir_fatal_empty_dir_warns
  have hrun := h.2.2.2 { envOk with generatedFiles := some [fileCTxt] } [fileCTxt]
    (by decide) (by decide) (by decide) (by decide) (by decide) (by decide) rfl (by decide)
  exact ⟨h.1 (some []), hrun.1, hrun.2.1⟩

/-- Claim C7: the fixture output directory is strictly additive:
harvest succeeds when the destination does not yet exist, overwrites
same-named files rather than erroring or duplicating, and never deletes
or modifies unrelated pre-existing files. -/
theorem C7_fixture_additive (src dest0 : List FsFile)
    (hsrc : (src.map FsFile.name).Nodup) (hdst : (dest0.map FsFile.name).Nodup) :
    (∃ d n, harvest (some src) none = some (d, n))
    ∧ (∃ d n, harvest (some src) (some dest0) = some (d, n)
        ∧ (d.map FsFile.name).Nodup
        ∧ (∀ g ∈ dest0, (∀ f ∈ src, matchesSk f.name = true → f.name ≠ g.name) → g ∈ d)
        ∧ (∀ x ∈ dest0.map FsFile.name, x ∈ d.map FsFile.name)
        ∧ (∀ f ∈ src, matchesSk f.name = true → f ∈ d)) := by
  refine ⟨⟨(copyFold [] src).1, (copyFold [] src).2, rfl⟩,
    (copyFold dest0 src).1, (copyFold dest0 src).2, rfl, ?_, ?_, ?_, ?_⟩
  · exact foldl_copyStep_nodup src dest0 0 hdst
  · intro g hg hnames
    exact foldl_copyStep_preserve src dest0 0 g hg hnames
  · intro x hx
    exact foldl_copyStep_name_mem src dest0 0 x hx
  · intro f hf hsk
    exact foldl_copyStep_mem_src src dest0 0 f hsrc hf hsk

/-- Claim C7 witness: harvesting a.sk into a destination already holding
an unrelated c.txt and a stale a.sk succeeds, keeps c.txt, and replaces
the stale a.sk by the fresh copy without duplication. -/
theorem C7_fixture_additive_witness :
    ∃ d n, harvest (some [fileASk]) (some [⟨"a.sk", "stale", 9⟩, fileCTxt]) = some (d, n)
      ∧ fileCTxt ∈ d ∧ fileASk ∈ d ∧ (d.map FsFile.name).Nodup := by
  obtain ⟨-, d, n, hh, hnd, hpres, -, hsk⟩ :=
    C7_fixture_additive [fileASk] [⟨"a.sk", "stale", 9⟩, fileCTxt] (by decide) (by decide)
  refine ⟨d, n, hh, ?_, ?_, hnd⟩
  · exact hpres fileCTxt (by decide) (by intro f hf _; fin_cases hf; decide)
  · exact hsk fileASk (by decide) (by decide)

/-- Claim C2: the Environment Verifier accepts exactly when the token in
the captured error-stream text parses to major version 25 (strict
equality, not a minimum-version check), rejects 24, 26 and unparseable
output with a fatal non-zero exit, and prints the detected version on
success. -/
theorem C2_java_version_strict_equality :
    (∀ r : JavaRunResult,
      ((check_java_version r).1 = JavaCheck.accepted 25 ↔
        findVersionMajor r.stderr = some 25)
      ∧ ((check_java_version r).1 = JavaCheck.rejected ↔
        findVersionMajor r.stderr ≠ some 25)
      ∧ (findVersionMajor r.stderr = some 25 →
          ("Found Java " ++ toString 25 ++ ".") ∈ (check_java_version r).2))
    ∧ (∀ env : Env, (check_java_version env.javaResult).1 = JavaCheck.rejected →
        (mainRun env).exitCode = 1)
    ∧ (check_java_version ⟨0, "", stderr25⟩).1 = JavaCheck.accepted 25
    ∧ (check_java_version ⟨0, "", stderr24⟩).1 = JavaCheck.rejected
    ∧ (check_java_version ⟨0, "", stderr26⟩).1 = JavaCheck.rejected
    ∧ (check_java_version ⟨0, "", "no parseable token"⟩).1 = JavaCheck.rejected := by
  refine ⟨?_, ?_, by decide, by decide, by decide, by decide⟩
  · intro r
    rcases hv : findVersionMajor r.stderr with _ | v
    · refine ⟨by simp [check_java_version, hv], by simp [check_java_version, hv], ?_⟩
      intro h
      exact Option.noConfusion h
    · by_cases h25 : v = 25
      · subst h25
        refine ⟨?_, ?_, ?_⟩
        · simp [check_java_version_of_major_25 r hv, hv]
        · simp [check_java_version_of_major_25 r hv, hv]
        · intro _
          simp [check_java_version_of_major_25 r hv]
      · refine ⟨by simp [check_java_version, hv, h25], by simp [check_java_version, hv, h25], ?_⟩
        intro h
        exact absurd (Option.some.inj h) h25
  · intro env hrej
    have h01 := mainRunWith_exit01 (mvnCommand env.osName) env
    unfold mainRun
    rcases h01 with h0 | h1
    · exfalso
      rw [mainRunWith_exit_zero_iff] at h0
      rw [check_java_version_of_major_25 env.javaResult h0.2.2.2.1] at hrej
      exact absurd hrej (by simp)
    · exact h1

/-- Claim C2 witness: the accepted 25 report, with the detected version
printed. -/
theorem C2_java_version_strict_equality_witness :
    (check_java_version ⟨0, "", stderr25⟩).1 = JavaCheck.accepted 25
    ∧ ("Found Java " ++ toString 25 ++ ".") ∈ (check_java_version ⟨0, "", stderr25⟩).2 := by
  have h := C2_java_version_strict_equality
  exact ⟨h.2.2.1, (h.1 ⟨0, "", stderr25⟩).2.2 (by decide)⟩

/-- Claim C10: the Java check never examines the exit status of the
version-reporting command: its decision depends only on the captured
standard-error text, a run exiting non-zero with a major-25 token on
stderr is accepted and the pipeline continues to the clone, and text
appearing only on standard output is never considered. -/
theorem C10_java_check_reads_only_stderr :
    (∀ (ec1 ec2 : Int) (out1 out2 err : String),
      check_java_version ⟨ec1, out1, err⟩ = check_java_version ⟨ec2, out2, err⟩)
    ∧ (∀ (ec : Int) (out err : String), findVersionMajor err = some 25 →
        (check_java_version ⟨ec, out, err⟩).1 = JavaCheck.accepted 25)
    ∧ (∀ env : Env, env.onPath "git" = true → env.onPath "mvn" = true →
        env.onPath "java" = true → env.javaResult.exitCode ≠ 0 →
        findVersionMajor env.javaResult.stderr = some 25 →
        Event.ranClone cloneCmdVec ∈ (mainRun env).events)
    ∧ (∀ (ec : Int) (out : String),
        (check_java_version ⟨ec, out, ""⟩).1 = JavaCheck.rejected) := by
  refine ⟨fun ec1 ec2 out1 out2 err => rfl, ?_, ?_, fun ec out => rfl⟩
  · intro ec out err hv
    rw [check_java_version_of_major_25 ⟨ec, out, err⟩ hv]
  · intro env h1 h2 h3 _ hv
    unfold mainRun
    by_cases hc : env.cloneExit = 0
    · by_cases hb : env.buildExit = 0
      · rcases hg : env.generatedFiles with _ | g
        · rw [mainRunWith_no_generated (mvnCommand env.osName) env h1 h2 h3 hv hc hb hg]
          simp
        · rw [mainRunWith_success (mvnCommand env.osName) env g h1 h2 h3 hv hc hb hg]
          simp
      · rw [mainRunWith_build_failed (mvnCommand env.osName) env h1 h2 h3 hv hc hb]
        simp
    · rw [mainRunWith_clone_failed (mvnCommand env.osName) env h1 h2 h3 hv hc]
      simp

/-- Claim C10 witness: a non-zero java exit with a major-25 stderr token
is accepted, and the pipeline then reaches the clone step. -/
theorem C10_java_check_reads_only_stderr_witness :
    (check_java_version ⟨1, "stdout noise", stderr25⟩).1 = JavaCheck.accepted 25
    ∧ Event.ranClone cloneCmdVec ∈
        (mainRun { envOk with javaResult := ⟨1, "stdout noise", stderr25⟩ }).events := by
  have h := C10_java_check_reads_only_stderr
  refine ⟨h.2.1 1 "stdout noise" stderr25 (by decide), ?_⟩
  exact h.2.2.1 { envOk with javaResult := ⟨1, "stdout noise", stderr25⟩ }
    (by decide) (by decide) (by decide) (by decide) (by decide)

/-- Claim C5: for every required tool absent from the search path, the
pipeline fails during verification before any network or build
activity: no external command is executed, the exit code is non-zero,
the failure message names a missing tool, and the workspace and fixture
directories are untouched. -/
theorem C5_missing_tool_blocks_all_activity (env : Env)
    (h : env.onPath "git" = false ∨ env.onPath "mvn" = false ∨ env.onPath "java" = false) :
    (mainRun env).events = [] ∧ (mainRun env).exitCode = 1
    ∧ (∃ t, t ∈ ["git", "mvn", "java"] ∧ env.onPath t = false
        ∧ ("Error: " ++ t ++ " is not installed or not in PATH.") ∈ (mainRun env).messages)
    ∧ (mainRun env).workspace = env.initialWorkspace
    ∧ (mainRun env).fixture = env.initialFixture := by
  unfold mainRun
  by_cases h1 : env.onPath "git" = true
  · by_cases h2 : env.onPath "mvn" = true
    · have h3 : env.onPath "java" = false := by
        rcases h with hx | hx | hx
        · rw [h1] at hx; exact absurd hx (by simp)
        · rw [h2] at hx; exact absurd hx (by simp)
        · exact hx
      rw [mainRunWith_missing_java (mvnCommand env.osName) env h1 h2 h3]
      exact ⟨rfl, rfl, ⟨"java", by simp, h3, by simp⟩, rfl, rfl⟩
    · have h2f : env.onPath "mvn" = false := by simpa using h2
      rw [mainRunWith_missing_mvn (mvnCommand env.osName) env h1 h2f]
      exact ⟨rfl, rfl, ⟨"mvn", by simp, h2f, by simp⟩, rfl, rfl⟩
  · have h1f : env.onPath "git" = false := by simpa using h1
    rw [mainRunWith_missing_git (mvnCommand env.osName) env h1f]
    exact ⟨rfl, rfl, ⟨"git", by simp, h1f, by simp⟩, rfl, rfl⟩

/-- Claim C5 witness: with nothing on the search path, no external
command runs and the exit code is 1. -/
theorem C5_missing_tool_blocks_all_activity_witness :
    (mainRun { envOk with onPath := fun _ => false }).events = []
    ∧ (mainRun { envOk with onPath := fun _ => false }).exitCode = 1 := by
  have h := C5_missing_tool_blocks_all_activity { envOk with onPath := fun _ => false }
    (Or.inl rfl)
  exact ⟨h.1, h.2.1⟩

/-- Claim C6: workspace reset is idempotent: whether or not the
workspace path already exists, after reset the directory exists and is
empty; resetting twice leaves the same result; and once verification
passes, the run's outcome is independent of whatever a previous run left
in the workspace. -/
theorem C6_workspace_reset_idempotent :
    (∀ w, resetWorkspace w = some [])
    ∧ (∀ w, resetWorkspace (resetWorkspace w) = resetWorkspace w)
    ∧ (∀ w w2, resetWorkspace w = resetWorkspace w2)
    ∧ (∀ (env : Env) (w w2 : Option (List FsFile)),
        env.onPath "git" = true → env.onPath "mvn" = true → env.onPath "java" = true →
        findVersionMajor env.javaResult.stderr = some 25 →
        mainRun { env with initialWorkspace := w }
          = mainRun { env with initialWorkspace := w2 }) := by
  refine ⟨resetWorkspace_eq, ?_, ?_, ?_⟩
  · intro w
    rw [resetWorkspace_eq w, resetWorkspace_eq]
  · intro w w2
    rw [resetWorkspace_eq w, resetWorkspace_eq w2]
  · intro env w w2 h1 h2 h3 hv
    obtain ⟨op, jr, iw, ce, cr, be, br, gf, fx, os⟩ := env
    show mainRunWith (mvnCommand os) ⟨op, jr, w, ce, cr, be, br, gf, fx, os⟩
      = mainRunWith (mvnCommand os) ⟨op, jr, w2, ce, cr, be, br, gf, fx, os⟩
    by_cases hc : ce = 0
    · by_cases hb : be = 0
      · rcases gf with _ | g
        · exact (mainRunWith_no_generated (mvnCommand os)
            ⟨op, jr, w, ce, cr, be, br, none, fx, os⟩ h1 h2 h3 hv hc hb rfl).trans
            (mainRunWith_no_generated (mvnCommand os)
              ⟨op, jr, w2, ce, cr, be, br, none, fx, os⟩ h1 h2 h3 hv hc hb rfl).symm
        · exact (mainRunWith_success (mvnCommand os)
            ⟨op, jr, w, ce, cr, be, br, some g, fx, os⟩ g h1 h2 h3 hv hc hb rfl).trans
            (mainRunWith_success (mvnCommand os)
              ⟨op, jr, w2, ce, cr, be, br, some g, fx, os⟩ g h1 h2 h3 hv hc hb rfl).symm
      · exact (mainRunWith_build_failed (mvnCommand os)
          ⟨op, jr, w, ce, cr, be, br, gf, fx, os⟩ h1 h2 h3 hv hc hb).trans
          (mainRunWith_build_failed (mvnCommand os)
            ⟨op, jr, w2, ce, cr, be, br, gf, fx, os⟩ h1 h2 h3 hv hc hb).symm
    · exact (mainRunWith_clone_failed (mvnCommand os)
        ⟨op, jr, w, ce, cr, be, br, gf, fx, os⟩ h1 h2 h3 hv hc).trans
        (mainRunWith_clone_failed (mvnCommand os)
          ⟨op, jr, w2, ce, cr, be, br, gf, fx, os⟩ h1 h2 h3 hv hc).symm

/-- Claim C6 witness: reset maps a stale workspace to the empty one, and
a run starting from a stale workspace equals a run starting from no
workspace at all. -/
theorem C6_workspace_reset_idempotent_witness :
    resetWorkspace (some [fileASk]) = some []
    ∧ mainRun { envOk with initialWorkspace := some [fileASk] }
        = mainRun { envOk with initialWorkspace := none } := by
  have h := C6_workspace_reset_idempotent
  exact ⟨h.1 (some [fileASk]),
    h.2.2.2 envOk (some [fileASk]) none rfl rfl rfl (by decide)⟩

/-- Claim C8: the build step runs the reference project's test phase
with the fixed profile, its working directory is the cloned workspace
root, the invoked command is the `.cmd`-suffixed variant exactly on the
Windows host family and the plain variant elsewhere, and the host family
affects the run only through that command choice. -/
theorem C8_build_invocation (env : Env) :
    (∀ cmd cwd, Event.ranBuild cmd cwd ∈ (mainRun env).events →
        cmd = mvnCommand env.osName ∧ cwd = tempDirName)
    ∧ (∀ cmd, Event.ranClone cmd ∈ (mainRun env).events → cmd = cloneCmdVec)
    ∧ mvnCommand "nt" = ["mvn.cmd", "test", "-P", "generate-java-files"]
    ∧ (∀ o, o ≠ "nt" → mvnCommand o = ["mvn", "test", "-P", "generate-java-files"])
    ∧ (∀ o1 o2, mvnCommand o1 = mvnCommand o2 →
        mainRun { env with osName := o1 } = mainRun { env with osName := o2 }) := by
  refine ⟨?_, ?_, rfl, ?_, ?_⟩
  · intro cmd cwd hmem
    unfold mainRun at hmem
    rcases mainRunWith_events_cases (mvnCommand env.osName) env with he | he | he <;>
      rw [he] at hmem <;> simp at hmem
    exact hmem
  · intro cmd hmem
    unfold mainRun at hmem
    rcases mainRunWith_events_cases (mvnCommand env.osName) env with he | he | he <;>
      rw [he] at hmem <;> simp at hmem <;> exact hmem
  · intro o ho
    unfold mvnCommand
    rw [if_neg ho]
  · intro o1 o2 hm
    show mainRunWith (mvnCommand o1) { env with osName := o1 }
      = mainRunWith (mvnCommand o2) { env with osName := o2 }
    rw [hm, mainRunWith_osName_irrelevant]
    exact (mainRunWith_osName_irrelevant (mvnCommand o2) env o2).symm

/-- Claim C8 witness: on a non-Windows name the plain variant is used,
and two non-Windows names give identical runs. -/
theorem C8_build_invocation_witness :
    mvnCommand "posix" = ["mvn", "test", "-P", "generate-java-files"]
    ∧ mainRun { envOk with osName := "posix" } = mainRun { envOk with osName := "linux" } := by
  have h := C8_build_invocation envOk
  exact ⟨h.2.2.2.1 "posix" (by decide), h.2.2.2.2 "posix" "linux" (by decide)⟩

/-- Claim C9: after a successful run the workspace is left on disk,
holding exactly the post-build contents (harvest does not delete or
modify it); it is destroyed only by a reset step, which empties it. -/
theorem C9_workspace_left_on_disk (env : Env)
    (h : (mainRun env).exitCode = 0) :
    (mainRun env).workspace = some env.buildResult
    ∧ Option.isSome (mainRun env).workspace = true
    ∧ resetWorkspace ((mainRun env).workspace) = some [] := by
  unfold mainRun at h ⊢
  rw [mainRunWith_exit_zero_iff] at h
  obtain ⟨h1, h2, h3, hv, hc, hb, hgs⟩ := h
  rcases hg : env.generatedFiles with _ | g
  · rw [hg] at hgs
    cases hgs
  · rw [mainRunWith_success (mvnCommand env.osName) env g h1 h2 h3 hv hc hb hg]
    exact ⟨rfl, rfl, rfl⟩

/-- Claim C9 witness: the successful example run leaves the post-build
workspace on disk. -/
theorem C9_workspace_left_on_disk_witness :
    (mainRun envOk).workspace = some envOk.buildResult := by
  exact (C9_workspace_left_on_disk envOk (by decide)).1

/-- Claim C4: the pipeline exits 0 exactly when every stage succeeds and
1 on every fatal condition — missing tool, wrong or unparseable Java
version, failed clone or build (for which a diagnostic is printed and no
retry is attempted), or missing post-build output directory. -/
theorem C4_exit_code_policy (env : Env) :
    ((mainRun env).exitCode = 0 ↔
      (env.onPath "git" = true ∧ env.onPath "mvn" = true ∧ env.onPath "java" = true
        ∧ findVersionMajor env.javaResult.stderr = some 25
        ∧ env.cloneExit = 0 ∧ env.buildExit = 0 ∧ env.generatedFiles.isSome = true))
    ∧ ((mainRun env).exitCode = 0 ∨ (mainRun env).exitCode = 1)
    ∧ List.countP isCloneEvent (mainRun env).events ≤ 1
    ∧ List.countP isBuildEvent (mainRun env).events ≤ 1
    ∧ (env.onPath "git" = true → env.onPath "mvn" = true → env.onPath "java" = true →
        findVersionMajor env.javaResult.stderr = some 25 → env.cloneExit ≠ 0 →
        (mainRun env).exitCode = 1
          ∧ runErrorMessage cloneCmdVec env.cloneExit ∈ (mainRun env).messages)
    ∧ (env.onPath "git" = true → env.onPath "mvn" = true → env.onPath "java" = true →
        findVersionMajor env.javaResult.stderr = some 25 → env.cloneExit = 0 →
        env.buildExit ≠ 0 →
        (mainRun env).exitCode = 1
          ∧ runErrorMessage (mvnCommand env.osName) env.buildExit ∈ (mainRun env).messages) := by
  refine ⟨mainRunWith_exit_zero_iff (mvnCommand env.osName) env, ?_, ?_, ?_, ?_, ?_⟩
  · exact mainRunWith_exit01 (mvnCommand env.osName) env
  · unfold mainRun
    rcases mainRunWith_events_cases (mvnCommand env.osName) env with he | he | he <;>
      rw [he] <;> simp [List.countP_cons, isCloneEvent, isBuildEvent]
  · unfold mainRun
    rcases mainRunWith_events_cases (mvnCommand env.osName) env with he | he | he <;>
      rw [he] <;> simp [List.countP_cons, isCloneEvent, isBuildEvent]
  · intro h1 h2 h3 hv hc
    unfold mainRun
    rw [mainRunWith_clone_failed (mvnCommand env.osName) env h1 h2 h3 hv hc]
    exact ⟨rfl, by simp⟩
  · intro h1 h2 h3 hv hc hb
    unfold mainRun
    rw [mainRunWith_build_failed (mvnCommand env.osName) env h1 h2 h3 hv hc hb]
    exact ⟨rfl, by simp⟩

/-- Claim C4 witness: the all-success example exits 0, and the same
environment with a failing clone exits 1. -/
theorem C4_exit_code_policy_witness :
    (mainRun envOk).exitCode = 0
    ∧ (mainRun { envOk with cloneExit := 1 }).exitCode = 1 := by
  refine ⟨(C4_exit_code_policy envOk).1.mpr
    ⟨rfl, rfl, rfl, by decide, rfl, rfl, rfl⟩, ?_⟩
  exact ((C4_exit_code_policy { envOk with cloneExit := 1 }).2.2.2.2.1
    rfl rfl rfl (by decide) (by decide)).1

end GenSerTestData
